import Mathlib

/-!
Verification of the session-aggregation core of `src/bot.py` (a Discord
time-tracking bot backed by two spreadsheet tables).

The embedding models:
  * the rows of the two worksheets ("Logs" and "Totaux") as `LogRow` /
    `TotalRow` lists inside a `Store`;
  * `datetime.strptime(s, "%H:%M:%S").time()` as `strptime_hms`, returning
    seconds since midnight, or `none` on a malformed string;
  * Python's stable `list.sort(key = row.heure)` as the stable insertion
    sort `sortByHeure` over the lexicographic byte order `lexLe` (Python
    compares strings by code points; a stable sort with respect to a total
    preorder is unique, so any stable sort is a faithful model);
  * the scan loop of `calculate_daily_hours` as `scanStep` / `runScan` /
    `finalizeScan`, with `Option Nat` for the `current_session_start` /
    `break_start` variables (`None` is falsy, a `datetime.time` is truthy);
  * seconds as `Int`: the accumulated `total_seconds` float only ever holds
    exact whole-second values, and Python's `//` and `%` on those agree with
    `Int./` and `Int.%` (floor division, nonnegative remainder) because each
    divisor used is positive;
  * the `try`/`except` boundary and the fallible sheet operations through
    `FaultCfg`: a flag per store operation; a failed operation aborts the
    whole call, which then returns `none` with the store unchanged (each
    sheet call is taken as atomic: it either succeeds or leaves the sheet
    as it was).  `calculate_daily_hours` is the fault-free instance, i.e.
    the code's normal behaviour.
-/

/-- A row of the "Logs" worksheet: columns Nom, Date, Heure, Événement. -/
structure LogRow where
  nom : String
  date : String
  heure : String
  evenement : String
deriving DecidableEq

/-- A row of the "Totaux" worksheet: columns Nom, Date, Heures Travaillées. -/
structure TotalRow where
  nom : String
  date : String
  heures : String
deriving DecidableEq

/-- The two worksheets the bot reads and writes. -/
structure Store where
  time_logs : List LogRow
  daily_totals : List TotalRow
deriving DecidableEq

/-- Lexicographic order on code points, Python's `<=` on `str`. -/
def lexLe : List Char → List Char → Bool
  | [], _ => true
  | _ :: _, [] => false
  | a :: as, b :: bs =>
      if a.toNat < b.toNat then true
      else if b.toNat < a.toNat then false
      else lexLe as bs

/-- Split a character list at every colon, as `str.split(':')` does. -/
def splitColons : List Char → List (List Char)
  | [] => [[]]
  | c :: rest =>
      if c = ':' then [] :: splitColons rest
      else
        match splitColons rest with
        | [] => [[c]]
        | f :: fs => (c :: f) :: fs

/-- Numeric value of a digit string. -/
def digitsVal (cs : List Char) : Nat :=
  cs.foldl (fun n c => n * 10 + (c.toNat - 48)) 0

/-- One `strptime` field (`%H`, `%M` or `%S`): one or two digits, at most
`bound`. -/
def parseField (cs : List Char) (bound : Nat) : Option Nat :=
  if 1 ≤ cs.length ∧ cs.length ≤ 2 ∧ cs.all (fun c => c.isDigit) then
    if digitsVal cs ≤ bound then some (digitsVal cs) else none
  else none

/-- `datetime.strptime(s, "%H:%M:%S").time()` as seconds since midnight;
`none` when the string is malformed (strptime raises `ValueError`). -/
def strptime_hms (s : String) : Option Nat :=
  match splitColons s.data with
  | [h, m, sec] =>
      match parseField h 23, parseField m 59, parseField sec 59 with
      | some hv, some mv, some sv => some (hv * 3600 + mv * 60 + sv)
      | _, _, _ => none
  | _ => none

/-- State of the scan loop in `calculate_daily_hours` (bot.py lines
109-112). -/
structure ScanState where
  total_seconds : Int
  current_session_start : Option Nat
  in_break : Bool
  break_start : Option Nat
deriving DecidableEq

/-- Initial scan state: `total_seconds = 0`, no open session, not on break. -/
def initScan : ScanState :=
  { total_seconds := 0, current_session_start := none, in_break := false,
    break_start := none }

/-- One iteration of the event loop (bot.py lines 114-139), given the
record's Événement string and its parsed time in seconds. -/
def scanStep (st : ScanState) (ev : String) (t : Nat) : ScanState :=
  if ev = "CHECK IN" then
    match st.current_session_start with
    | none => { st with current_session_start := some t }
    | some _ => st
  else if ev = "BREAK" then
    match st.current_session_start, st.in_break with
    | some s0, false =>
        { st with
            total_seconds := st.total_seconds + ((t : Int) - (s0 : Int)),
            in_break := true,
            break_start := some t }
    | _, _ =>
        if st.in_break then
          { st with in_break := false, current_session_start := some t }
        else st
  else if ev = "CHECK OUT" then
    let st1 :=
      match st.current_session_start, st.in_break with
      | some s0, false =>
          { st with total_seconds := st.total_seconds + ((t : Int) - (s0 : Int)) }
      | _, _ => st
    { st1 with current_session_start := none }
  else st

/-- The whole event loop over a parsed `(Événement, seconds)` list. -/
def runScan (events : List (String × Nat)) : ScanState :=
  events.foldl (fun st e => scanStep st e.1 e.2) initScan

/-- The dangling-break fixup after the loop (bot.py lines 141-146). -/
def finalizeScan (st : ScanState) : Int :=
  match st.in_break, st.break_start, st.current_session_start with
  | true, some bs, some s0 => st.total_seconds + ((bs : Int) - (s0 : Int))
  | _, _, _ => st.total_seconds

/-- Python `f"{n:02d}"`: zero-pad a one-digit nonnegative number to width 2. -/
def pad2 (n : Int) : String :=
  if 0 ≤ n ∧ n < 10 then "0" ++ toString n else toString n

/-- The formatting block of `calculate_daily_hours` (bot.py lines 148-154):
`hours = total // 3600`, `minutes = (total % 3600) // 60`,
`seconds = total % 60`, rendered as `f"{hours}h{minutes:02d}m{seconds:02d}s"`. -/
def formatDuration (total : Int) : String :=
  let hours := total / 3600
  let minutes := (total % 3600) / 60
  let seconds := total % 60
  toString hours ++ "h" ++ pad2 minutes ++ "m" ++ pad2 seconds ++ "s"

/-- The formatting rule in the words of the spec: floor-divide by 3600 for
hours, floor-divide the remainder by 60 for minutes, and the final remainder
is the seconds. -/
def formatDurationSpec (total : Int) : String :=
  let hours := total / 3600
  let rem := total % 3600
  toString hours ++ "h" ++ pad2 (rem / 60) ++ "m" ++ pad2 (rem % 60) ++ "s"

/-- Stable insert used to model Python's stable sort: a new row goes after
every already-placed row whose key is less than or equal to its own. -/
def insertByHeure (r : LogRow) : List LogRow → List LogRow
  | [] => [r]
  | x :: xs =>
      if lexLe x.heure.data r.heure.data then x :: insertByHeure r xs
      else r :: x :: xs

/-- `user_records.sort(key=lambda x: x['Heure'])`: stable sort by the Heure
string (bot.py line 107). -/
def sortByHeure (rows : List LogRow) : List LogRow :=
  rows.foldl (fun acc r => insertByHeure r acc) []

/-- The filter on line 101: records of this user on this date. -/
def userRecordsFor (logs : List LogRow) (username date_str : String) :
    List LogRow :=
  logs.filter (fun r => decide (r.nom = username ∧ r.date = date_str))

/-- Parse the Heure column of every sorted record.  The Python loop parses
each row as it reaches it; since the loop performs no store writes, a
malformed row aborting mid-loop is observationally the same as parsing all
rows up front. -/
def parseEvents (rows : List LogRow) : Option (List (String × Nat)) :=
  rows.mapM (fun r => (strptime_hms r.heure).map (fun t => (r.evenement, t)))

/-- Outcome of the pure part of `calculate_daily_hours`: no matching
records (line 103), a `ValueError` from `strptime` (caught at line 171), or
a formatted total. -/
inductive AggOutcome where
  | noRecords : AggOutcome
  | parseFailure : AggOutcome
  | ok : String → AggOutcome
deriving DecidableEq

/-- Whether an outcome carries a formatted total. -/
def AggOutcome.isOk : AggOutcome → Bool
  | .ok _ => true
  | _ => false

/-- Lines 99-154 of bot.py: filter, sort, scan, fix up, format. -/
def computeFormatted (logs : List LogRow) (username date_str : String) :
    AggOutcome :=
  let user_records := userRecordsFor logs username date_str
  if user_records.isEmpty then .noRecords
  else
    match parseEvents (sortByHeure user_records) with
    | none => .parseFailure
    | some evs => .ok (formatDuration (finalizeScan (runScan evs)))

/-- Row matching in the upsert loop (line 161): same Nom and same Date. -/
def matchesKey (e : TotalRow) (username date_str : String) : Bool :=
  decide (e.nom = username ∧ e.date = date_str)

/-- The upsert loop body (lines 160-164): overwrite the Heures column of
the first row whose Nom and Date match, leave everything else in place. -/
def updateFirstTotal (username date_str ft : String) :
    List TotalRow → List TotalRow
  | [] => []
  | e :: rest =>
      if matchesKey e username date_str then { e with heures := ft } :: rest
      else e :: updateFirstTotal username date_str ft rest

/-- One failure flag per fallible sheet operation inside
`calculate_daily_hours`. -/
structure FaultCfg where
  read_logs_fails : Bool
  read_totals_fails : Bool
  update_cell_fails : Bool
  append_row_fails : Bool
deriving DecidableEq

/-- The fault-free configuration. -/
def noFaults : FaultCfg := ⟨false, false, false, false⟩

/-- `calculate_daily_hours(username, date_str)` (bot.py lines 93-173) with
explicit fault injection.  Any raised fault lands in the `except` clause:
the function returns `None` and the store is left as it was. -/
def calculate_daily_hours_f (cfg : FaultCfg) (st : Store)
    (username date_str : String) : Option String × Store :=
  if cfg.read_logs_fails then (none, st)
  else
    match computeFormatted st.time_logs username date_str with
    | .noRecords => (none, st)
    | .parseFailure => (none, st)
    | .ok ft =>
        if cfg.read_totals_fails then (none, st)
        else if st.daily_totals.any (fun e => matchesKey e username date_str) then
          if cfg.update_cell_fails then (none, st)
          else
            (some ft,
             { st with
                 daily_totals := updateFirstTotal username date_str ft st.daily_totals })
        else if cfg.append_row_fails then (none, st)
        else (some ft, { st with daily_totals := st.daily_totals ++ [⟨username, date_str, ft⟩] })

/-- `calculate_daily_hours` with every sheet operation succeeding: the
code's normal behaviour. -/
def calculate_daily_hours (st : Store) (username date_str : String) :
    Option String × Store :=
  calculate_daily_hours_f noFaults st username date_str

/-- The event kind that the `!break` command logs (bot.py lines 205-228):
`BREAK START` unless the user's most recent `BREAK START`/`BREAK END` row is
a `BREAK START`, in which case `BREAK END`. -/
def take_break_event (user_logs : List LogRow) : String :=
  let last_break :=
    user_logs.reverse.find?
      (fun l => decide (l.evenement = "BREAK START" ∨ l.evenement = "BREAK END"))
  match last_break with
  | none => "BREAK START"
  | some l => if l.evenement = "BREAK END" then "BREAK START" else "BREAK END"

/-! ### Concrete scenario stores -/

/-- Event history of the dangling-break scenario: check in at 09:00:00, a
BREAK tag at 12:00:00, nothing afterwards. -/
def danglingBreakStore : Store :=
  ⟨[⟨"alice", "2024-05-06", "09:00:00", "CHECK IN"⟩,
    ⟨"alice", "2024-05-06", "12:00:00", "BREAK"⟩], []⟩

/-- Event history of the break-toggle scenario: check in at 09:00:00, BREAK
tags at 12:00:00 and 12:30:00, check out at 17:00:00. -/
def toggleStore : Store :=
  ⟨[⟨"alice", "2024-05-06", "09:00:00", "CHECK IN"⟩,
    ⟨"alice", "2024-05-06", "12:00:00", "BREAK"⟩,
    ⟨"alice", "2024-05-06", "12:30:00", "BREAK"⟩,
    ⟨"alice", "2024-05-06", "17:00:00", "CHECK OUT"⟩], []⟩

/-! ### Claim theorems -/

/-- C1: the claim says the dangling-break history `[CheckIn 09:00:00,
BREAK 12:00:00]` aggregates to `"3h00m00s"`, the pre-break interval counted
exactly once.  The code actually returns `"6h00m00s"`: the BREAK branch adds
the 3-hour interval but never clears `current_session_start`, so the
end-of-records fixup adds the same interval a second time.  This theorem
records the code's actual behaviour at the failing input (the full scan
accumulates 21600 seconds, not 10800). -/
theorem c1_dangling_break_code_behavior :
    calculate_daily_hours danglingBreakStore "alice" "2024-05-06" =
      (some "6h00m00s",
       ⟨danglingBreakStore.time_logs, [⟨"alice", "2024-05-06", "6h00m00s"⟩]⟩) ∧
    finalizeScan (runScan [("CHECK IN", 32400), ("BREAK", 43200)]) = 21600 := by
  decide

/-- C2: on `[CheckIn 09:00:00, BREAK 12:00:00, BREAK 12:30:00,
CheckOut 17:00:00]` the first BREAK tag accrues the 3 pre-break hours and
enters break state, the second BREAK tag ends the break and reopens a
session at 12:30:00, and the check-out accrues the remaining 4h30m, for a
total of `"7h30m00s"`. -/
theorem c2_break_toggle :
    runScan [("CHECK IN", 32400), ("BREAK", 43200)] =
      { total_seconds := 10800, current_session_start := some 32400,
        in_break := true, break_start := some 43200 } ∧
    runScan [("CHECK IN", 32400), ("BREAK", 43200), ("BREAK", 45000)] =
      { total_seconds := 10800, current_session_start := some 45000,
        in_break := false, break_start := some 43200 } ∧
    (calculate_daily_hours toggleStore "alice" "2024-05-06").1 =
      some "7h30m00s" := by
  decide

/-- C3: the `!break` command only ever logs the kinds `BREAK START` and
`BREAK END`, and the aggregation scan ignores both: its break branch matches
only the literal tag `BREAK`, so these events leave the scan state — the
accumulated total, the open session and the break flag — untouched. -/
theorem c3_break_start_end_ignored :
    (∀ user_logs : List LogRow,
        take_break_event user_logs = "BREAK START" ∨
        take_break_event user_logs = "BREAK END") ∧
    (∀ (st : ScanState) (t : Nat), scanStep st "BREAK START" t = st) ∧
    (∀ (st : ScanState) (t : Nat), scanStep st "BREAK END" t = st) := by
  refine ⟨fun user_logs => ?_, fun st t => rfl, fun st t => rfl⟩
  unfold take_break_event
  cases user_logs.reverse.find?
      (fun l => decide (l.evenement = "BREAK START" ∨ l.evenement = "BREAK END")) with
  | none => exact Or.inl rfl
  | some l =>
      by_cases h : l.evenement = "BREAK END"
      · exact Or.inl (by simp [h])
      · exact Or.inr (by simp [h])

/-- C7: the duration formatter renders unpadded hours from floor division
by 3600 and two-digit zero-padded minutes and seconds from the remainder
(the code takes seconds as `total % 60`, which agrees with the spec's
remainder-of-the-remainder because 60 divides 3600); `35701` renders as
`"9h55m01s"` and `0` as `"0h00m00s"`. -/
theorem c7_duration_formatting :
    (∀ total : Int, formatDuration total = formatDurationSpec total) ∧
    formatDuration 35701 = "9h55m01s" ∧ formatDuration 0 = "0h00m00s" := by
  refine ⟨fun total => ?_, by decide, by decide⟩
  simp only [formatDuration, formatDurationSpec]
  rw [Int.emod_emod_of_dvd total (by norm_num : (60 : ℤ) ∣ 3600)]

/-- The event list of a balanced, alternating check-in/check-out day: each
pair contributes a `CHECK IN` at its first time and a `CHECK OUT` at its
second. -/
def pairEvents : List (Nat × Nat) → List (String × Nat)
  | [] => []
  | p :: ps => ("CHECK IN", p.1) :: ("CHECK OUT", p.2) :: pairEvents ps

/-- Scanning an alternating check-in/check-out list from a closed-session,
off-break state adds exactly the sum of the per-pair differences and returns
to the same kind of state. -/
theorem foldl_scanStep_pairEvents (pairs : List (Nat × Nat)) (acc : Int)
    (bs : Option Nat) :
    List.foldl (fun st e => scanStep st e.1 e.2)
        { total_seconds := acc, current_session_start := none,
          in_break := false, break_start := bs } (pairEvents pairs) =
      { total_seconds := acc + (pairs.map (fun p => (p.2 : Int) - (p.1 : Int))).sum,
        current_session_start := none, in_break := false, break_start := bs } := by
  induction pairs generalizing acc with
  | nil => simp [pairEvents]
  | cons p ps ih =>
      have h2 : List.foldl (fun st e => scanStep st e.1 e.2)
          { total_seconds := acc, current_session_start := none,
            in_break := false, break_start := bs } (pairEvents (p :: ps)) =
          List.foldl (fun st e => scanStep st e.1 e.2)
            { total_seconds := acc + ((p.2 : Int) - (p.1 : Int)),
              current_session_start := none, in_break := false,
              break_start := bs } (pairEvents ps) := rfl
      rw [h2, ih]
      simp [add_assoc]

/-- C4: on any event sequence of balanced, alternating CheckIn/CheckOut
pairs with no break events, the scan accumulates exactly the sum over the
pairs of (check-out time minus check-in time); and a `CHECK IN` that arrives
while a session is already open changes nothing (it does not reset
`current_session_start`). -/
theorem c4_balanced_pairs :
    (∀ pairs : List (Nat × Nat),
        finalizeScan (runScan (pairEvents pairs)) =
          (pairs.map (fun p => (p.2 : Int) - (p.1 : Int))).sum) ∧
    (∀ (acc : Int) (s0 : Nat) (b : Bool) (bs : Option Nat) (t : Nat),
        scanStep
            { total_seconds := acc, current_session_start := some s0,
              in_break := b, break_start := bs } "CHECK IN" t =
          { total_seconds := acc, current_session_start := some s0,
            in_break := b, break_start := bs }) := by
  refine ⟨fun pairs => ?_, fun acc s0 b bs t => rfl⟩
  have h := foldl_scanStep_pairEvents pairs 0 none
  simp only [runScan, initScan] at h ⊢
  rw [h]
  simp [finalizeScan]

/-- C9: on a `CHECK OUT` event the scan clears the open session
unconditionally, leaves the break flag and recorded break start unchanged,
and adds (event time minus session start) to the total exactly when a
session was open and the state was not on break. -/
theorem c9_checkout_semantics (st : ScanState) (t : Nat) :
    (scanStep st "CHECK OUT" t).current_session_start = none ∧
    (scanStep st "CHECK OUT" t).in_break = st.in_break ∧
    (scanStep st "CHECK OUT" t).break_start = st.break_start ∧
    (∀ s0 : Nat, st.current_session_start = some s0 → st.in_break = false →
        (scanStep st "CHECK OUT" t).total_seconds =
          st.total_seconds + ((t : Int) - (s0 : Int))) ∧
    (st.current_session_start = none ∨ st.in_break = true →
        (scanStep st "CHECK OUT" t).total_seconds = st.total_seconds) := by
  obtain ⟨acc, cs, b, bs⟩ := st
  refine ⟨?_, ?_, ?_, ?_, ?_⟩
  · cases cs <;> cases b <;> rfl
  · cases cs <;> cases b <;> rfl
  · cases cs <;> cases b <;> rfl
  · intro s0 h1 h2
    simp only at h1 h2
    subst h1; subst h2
    rfl
  · intro h
    rcases h with h | h <;> simp only at h <;> subst h
    · cases b <;> rfl
    · cases cs <;> rfl

/-- Witness for C9 at concrete states: a check-out at second 250 from a
session opened at second 100 accrues 150 seconds when off break, and
accrues nothing when the state is on break. -/
theorem c9_checkout_semantics_witness :
    (scanStep ⟨0, some 100, false, none⟩ "CHECK OUT" 250).total_seconds =
        0 + ((250 : Int) - (100 : Int)) ∧
    (scanStep ⟨7, some 100, true, some 5⟩ "CHECK OUT" 250).total_seconds = 7 ∧
    (scanStep ⟨0, some 100, false, none⟩ "CHECK OUT" 250).current_session_start =
        none :=
  ⟨(c9_checkout_semantics ⟨0, some 100, false, none⟩ 250).2.2.2.1 100 rfl rfl,
   (c9_checkout_semantics ⟨7, some 100, true, some 5⟩ 250).2.2.2.2 (Or.inr rfl),
   (c9_checkout_semantics ⟨0, some 100, false, none⟩ 250).1⟩

/-- C8: when the log table holds no row for the requested user and date,
`calculate_daily_hours` returns `None` and leaves the store untouched. -/
theorem c8_no_records (st : Store) (username date_str : String)
    (h : userRecordsFor st.time_logs username date_str = []) :
    calculate_daily_hours st username date_str = (none, st) := by
  simp only [calculate_daily_hours, calculate_daily_hours_f, noFaults,
    computeFormatted, h]
  rfl

/-- Witness for C8: an empty store has no records for any user, and the
call returns `None` without touching the store. -/
theorem c8_no_records_witness :
    calculate_daily_hours ⟨[], []⟩ "alice" "2024-05-06" = (none, ⟨[], []⟩) :=
  c8_no_records ⟨[], []⟩ "alice" "2024-05-06" rfl

/-- Helper: no branch of `calculate_daily_hours_f` ever writes to the
"Logs" worksheet. -/
theorem calc_f_preserves_time_logs (cfg : FaultCfg) (st : Store)
    (username date_str : String) :
    ((calculate_daily_hours_f cfg st username date_str).2).time_logs =
      st.time_logs := by
  unfold calculate_daily_hours_f
  repeat' split
  all_goals rfl

/-- A fault actually occurs during an aggregation call when the log read
fails, or a Heure cell fails to parse, or the scan succeeded but the summary
read — or the one summary write the call then performs — fails. -/
def faultOccurs (cfg : FaultCfg) (st : Store) (username date_str : String) :
    Prop :=
  cfg.read_logs_fails = true ∨
  computeFormatted st.time_logs username date_str = AggOutcome.parseFailure ∨
  ((computeFormatted st.time_logs username date_str).isOk = true ∧
    (cfg.read_totals_fails = true ∨
     (st.daily_totals.any (fun e => matchesKey e username date_str) = true ∧
        cfg.update_cell_fails = true) ∨
     (st.daily_totals.any (fun e => matchesKey e username date_str) = false ∧
        cfg.append_row_fails = true)))

/-- C6: whenever a fault occurs while reading the event store, parsing a
time string, or writing the summary store, the aggregation returns `None`
and the store is exactly as it was — no partial summary is written, and the
caller observes only the absent result (the `except` clause swallows the
exception). -/
theorem c6_fault_containment (cfg : FaultCfg) (st : Store)
    (username date_str : String) (h : faultOccurs cfg st username date_str) :
    calculate_daily_hours_f cfg st username date_str = (none, st) := by
  unfold calculate_daily_hours_f
  rcases h with h | h | ⟨hok, hflag⟩
  · simp [h]
  · by_cases hr : cfg.read_logs_fails
    · simp [hr]
    · simp [hr, h]
  · obtain ⟨ft, hft⟩ :
        ∃ ft, computeFormatted st.time_logs username date_str = AggOutcome.ok ft := by
      cases hco : computeFormatted st.time_logs username date_str with
      | ok ft => exact ⟨ft, rfl⟩
      | noRecords => rw [hco] at hok; simp [AggOutcome.isOk] at hok
      | parseFailure => rw [hco] at hok; simp [AggOutcome.isOk] at hok
    by_cases hr : cfg.read_logs_fails
    · simp [hr]
    · rcases hflag with h2 | ⟨hany, h2⟩ | ⟨hany, h2⟩
      · simp [hr, hft, h2]
      · simp [hr, hft, h2, hany]
      · simp [hr, hft, h2, hany]

/-- Store whose single log row carries an unparseable Heure cell. -/
def malformedHeureStore : Store :=
  ⟨[⟨"bob", "2024-05-06", "notatime", "CHECK IN"⟩], []⟩

/-- Witness for C6: a failing log read, and a malformed time string under
no injected faults, each yield `None` with the store unchanged. -/
theorem c6_fault_containment_witness :
    calculate_daily_hours_f ⟨true, false, false, false⟩ malformedHeureStore
        "bob" "2024-05-06" = (none, malformedHeureStore) ∧
    calculate_daily_hours_f noFaults malformedHeureStore "bob" "2024-05-06" =
      (none, malformedHeureStore) :=
  ⟨c6_fault_containment _ _ _ _ (Or.inl rfl),
   c6_fault_containment _ _ _ _ (Or.inr (Or.inl (by decide)))⟩

/-- C10: under every fault configuration, aggregation never mutates the
events table — its only store write is to the summary table, and that write
is either the single in-place update of the first matching row or the single
append of a new row for the computed total. -/
theorem c10_events_table_frame (cfg : FaultCfg) (st : Store)
    (username date_str : String) :
    ((calculate_daily_hours_f cfg st username date_str).2).time_logs =
        st.time_logs ∧
    (((calculate_daily_hours_f cfg st username date_str).2).daily_totals =
        st.daily_totals ∨
      ∃ ft, computeFormatted st.time_logs username date_str = AggOutcome.ok ft ∧
        (((calculate_daily_hours_f cfg st username date_str).2).daily_totals =
            updateFirstTotal username date_str ft st.daily_totals ∨
         ((calculate_daily_hours_f cfg st username date_str).2).daily_totals =
            st.daily_totals ++ [⟨username, date_str, ft⟩])) := by
  refine ⟨calc_f_preserves_time_logs cfg st username date_str, ?_⟩
  unfold calculate_daily_hours_f
  split
  · exact Or.inl rfl
  · split
    · exact Or.inl rfl
    · exact Or.inl rfl
    · rename_i ft heq
      split
      · exact Or.inl rfl
      · split
        · split
          · exact Or.inl rfl
          · exact Or.inr ⟨ft, heq, Or.inl rfl⟩
        · split
          · exact Or.inl rfl
          · exact Or.inr ⟨ft, heq, Or.inr rfl⟩

/-! ### Summary-table bookkeeping for the upsert claims -/

/-- Number of summary rows for a given user and date. -/
def countKey (totals : List TotalRow) (username date_str : String) : Nat :=
  (totals.filter (fun e => matchesKey e username date_str)).length

/-- The stored total of the first summary row for a given user and date. -/
def findTotalFor (totals : List TotalRow) (username date_str : String) :
    Option String :=
  (totals.find? (fun e => matchesKey e username date_str)).map (fun e => e.heures)

/-- Overwriting the Heures column does not change which key a row matches. -/
theorem matchesKey_set_heures (e : TotalRow) (username date_str ft : String) :
    matchesKey { e with heures := ft } username date_str =
      matchesKey e username date_str := rfl

/-- The in-place update leaves the number of rows for the key unchanged. -/
theorem countKey_updateFirstTotal (L : List TotalRow)
    (username date_str ft : String) :
    countKey (updateFirstTotal username date_str ft L) username date_str =
      countKey L username date_str := by
  induction L with
  | nil => rfl
  | cons e rest ih =>
      by_cases h : matchesKey e username date_str
      · simp [countKey, updateFirstTotal, h, List.filter_cons,
          matchesKey_set_heures]
      · simp only [countKey, updateFirstTotal, h, Bool.false_eq_true,
          if_false, List.filter_cons] at ih ⊢
        simp [h, ih]

/-- After the in-place update, the first row for the key holds the new
total (provided some row for the key exists). -/
theorem findTotalFor_updateFirstTotal (L : List TotalRow)
    (username date_str ft : String)
    (h : L.any (fun e => matchesKey e username date_str) = true) :
    findTotalFor (updateFirstTotal username date_str ft L) username date_str =
      some ft := by
  induction L with
  | nil => simp at h
  | cons e rest ih =>
      by_cases he : matchesKey e username date_str
      · simp [findTotalFor, updateFirstTotal, he, List.find?_cons,
          matchesKey_set_heures]
      · simp only [List.any_cons, he, Bool.false_or] at h
        simp only [findTotalFor, updateFirstTotal, he, Bool.false_eq_true,
          if_false, List.find?_cons] at ih ⊢
        simp [he, ih h]

/-- If no row matches the key, none survives the filter. -/
theorem countKey_eq_zero_of_any_false (L : List TotalRow)
    (username date_str : String)
    (h : L.any (fun e => matchesKey e username date_str) = false) :
    countKey L username date_str = 0 := by
  simp only [countKey, List.length_eq_zero]
  rw [List.filter_eq_nil_iff]
  intro a ha
  exact (List.any_eq_false.mp h) a ha

/-- A freshly appended row for the key matches it. -/
theorem matchesKey_mk (username date_str ft : String) :
    matchesKey ⟨username, date_str, ft⟩ username date_str = true := by
  simp [matchesKey]

/-- Appending a row for the key adds exactly one matching row. -/
theorem countKey_append_single (L : List TotalRow)
    (username date_str ft : String) :
    countKey (L ++ [⟨username, date_str, ft⟩]) username date_str =
      countKey L username date_str + 1 := by
  simp [countKey, List.filter_append, matchesKey_mk]

/-- If no existing row matches the key, the appended row is the first (and
only) row found for it. -/
theorem findTotalFor_append (L : List TotalRow) (username date_str ft : String)
    (h : L.any (fun e => matchesKey e username date_str) = false) :
    findTotalFor (L ++ [⟨username, date_str, ft⟩]) username date_str =
      some ft := by
  have hnone : L.find? (fun e => matchesKey e username date_str) = none := by
    rw [List.find?_eq_none]
    exact List.any_eq_false.mp h
  simp [findTotalFor, List.find?_append, hnone, matchesKey_mk]

/-- A key with a positive row count has a matching row. -/
theorem any_of_countKey_pos (L : List TotalRow) (username date_str : String)
    (h : 0 < countKey L username date_str) :
    L.any (fun e => matchesKey e username date_str) = true := by
  by_contra hfalse
  have h0 := countKey_eq_zero_of_any_false L username date_str
    (Bool.eq_false_iff.mpr (fun hcontra => hfalse hcontra))
  omega

/-- The tail of `calculate_daily_hours` (lines 156-169) as a function of
the scan outcome: on success, update the first matching summary row in
place, or append a fresh row; otherwise report `None`. -/
def applyOutcome (st : Store) (username date_str : String) :
    AggOutcome → Option String × Store
  | AggOutcome.ok ft =>
      if st.daily_totals.any (fun e => matchesKey e username date_str) then
        (some ft,
         { st with
             daily_totals := updateFirstTotal username date_str ft st.daily_totals })
      else
        (some ft, { st with daily_totals := st.daily_totals ++ [⟨username, date_str, ft⟩] })
  | AggOutcome.noRecords => (none, st)
  | AggOutcome.parseFailure => (none, st)

/-- With no injected faults, `calculate_daily_hours` is the scan outcome
fed to the summary upsert. -/
theorem calc_noFaults_eq (st : Store) (username date_str : String) :
    calculate_daily_hours st username date_str =
      applyOutcome st username date_str
        (computeFormatted st.time_logs username date_str) := by
  cases hco : computeFormatted st.time_logs username date_str <;>
    simp [calculate_daily_hours, calculate_daily_hours_f, noFaults, hco,
      applyOutcome]

/-- A successful call returns exactly the formatted total of its outcome. -/
theorem applyOutcome_fst_ok (st : Store) (username date_str ft : String) :
    (applyOutcome st username date_str (AggOutcome.ok ft)).1 = some ft := by
  simp only [applyOutcome]
  split <;> rfl

/-- A call that returns a present result had a successful scan outcome. -/
theorem outcome_ok_of_fst_some (st : Store) (username date_str ft : String)
    (h : (calculate_daily_hours st username date_str).1 = some ft) :
    computeFormatted st.time_logs username date_str = AggOutcome.ok ft := by
  rw [calc_noFaults_eq] at h
  cases hco : computeFormatted st.time_logs username date_str with
  | ok g =>
      rw [hco, applyOutcome_fst_ok] at h
      exact congrArg AggOutcome.ok (Option.some.inj h)
  | noRecords => rw [hco] at h; exact absurd h (by simp [applyOutcome])
  | parseFailure => rw [hco] at h; exact absurd h (by simp [applyOutcome])

/-- C5: starting from a summary table with at most one row for the key,
running the aggregation twice over the unchanged event history returns the
same formatted total both times and leaves exactly one summary row for
(user, date), holding that total — the second call overwrites the first
row in place rather than appending a duplicate. -/
theorem c5_upsert_idempotent (st : Store) (username date_str ft : String)
    (hcount : countKey st.daily_totals username date_str ≤ 1)
    (h1 : (calculate_daily_hours st username date_str).1 = some ft) :
    (calculate_daily_hours (calculate_daily_hours st username date_str).2
        username date_str).1 = some ft ∧
    countKey ((calculate_daily_hours (calculate_daily_hours st username date_str).2
        username date_str).2).daily_totals username date_str = 1 ∧
    findTotalFor ((calculate_daily_hours (calculate_daily_hours st username date_str).2
        username date_str).2).daily_totals username date_str = some ft := by
  have hft := outcome_ok_of_fst_some st username date_str ft h1
  have hlogs : ((calculate_daily_hours st username date_str).2).time_logs =
      st.time_logs :=
    calc_f_preserves_time_logs noFaults st username date_str
  -- the summary table after the first call
  have hst1 : (calculate_daily_hours st username date_str).2 =
      (applyOutcome st username date_str (AggOutcome.ok ft)).2 := by
    rw [calc_noFaults_eq, hft]
  have htot1 : countKey ((calculate_daily_hours st username date_str).2).daily_totals
        username date_str = 1 ∧
      findTotalFor ((calculate_daily_hours st username date_str).2).daily_totals
        username date_str = some ft := by
    rw [hst1]
    unfold applyOutcome
    by_cases hany : st.daily_totals.any
        (fun e => matchesKey e username date_str) = true
    · simp only [hany, if_true]
      constructor
      · rw [countKey_updateFirstTotal]
        have hpos : 0 < countKey st.daily_totals username date_str := by
          obtain ⟨x, hx, hpx⟩ := List.any_eq_true.mp hany
          have hmem : x ∈ st.daily_totals.filter
              (fun e => matchesKey e username date_str) :=
            List.mem_filter.mpr ⟨hx, hpx⟩
          simpa [countKey] using List.length_pos.mpr (List.ne_nil_of_mem hmem)
        omega
      · exact findTotalFor_updateFirstTotal st.daily_totals username date_str ft hany
    · have hfalse : st.daily_totals.any
          (fun e => matchesKey e username date_str) = false :=
        Bool.eq_false_iff.mpr hany
      simp only [hfalse, Bool.false_eq_true, if_false]
      constructor
      · rw [countKey_append_single,
          countKey_eq_zero_of_any_false st.daily_totals username date_str hfalse]
      · exact findTotalFor_append st.daily_totals username date_str ft hfalse
  -- the second call sees the same logs, hence the same outcome
  have hft2 : computeFormatted
      ((calculate_daily_hours st username date_str).2).time_logs username date_str =
      AggOutcome.ok ft := by rw [hlogs]; exact hft
  have hany2 : ((calculate_daily_hours st username date_str).2).daily_totals.any
      (fun e => matchesKey e username date_str) = true :=
    any_of_countKey_pos _ username date_str (by omega)
  have hcall2 : calculate_daily_hours (calculate_daily_hours st username date_str).2
      username date_str =
      (some ft,
       { (calculate_daily_hours st username date_str).2 with
           daily_totals := updateFirstTotal username date_str ft
             ((calculate_daily_hours st username date_str).2).daily_totals }) := by
    rw [calc_noFaults_eq, hft2]
    unfold applyOutcome
    simp only [hany2, if_true]
  refine ⟨by rw [hcall2], ?_, ?_⟩
  · rw [hcall2]
    simpa [countKey_updateFirstTotal] using htot1.1
  · rw [hcall2]
    exact findTotalFor_updateFirstTotal _ username date_str ft hany2

/-- Witness for C5: one check-in/check-out hour for a user with an empty
summary table; both calls return `"1h00m00s"` and exactly one summary row
for the key remains, holding it. -/
theorem c5_upsert_idempotent_witness :
    (calculate_daily_hours
        (calculate_daily_hours ⟨[⟨"carol", "2024-05-06", "09:00:00", "CHECK IN"⟩,
          ⟨"carol", "2024-05-06", "10:00:00", "CHECK OUT"⟩], []⟩ "carol" "2024-05-06").2
        "carol" "2024-05-06").1 = some "1h00m00s" ∧
    countKey ((calculate_daily_hours
        (calculate_daily_hours ⟨[⟨"carol", "2024-05-06", "09:00:00", "CHECK IN"⟩,
          ⟨"carol", "2024-05-06", "10:00:00", "CHECK OUT"⟩], []⟩ "carol" "2024-05-06").2
        "carol" "2024-05-06").2).daily_totals "carol" "2024-05-06" = 1 ∧
    findTotalFor ((calculate_daily_hours
        (calculate_daily_hours ⟨[⟨"carol", "2024-05-06", "09:00:00", "CHECK IN"⟩,
          ⟨"carol", "2024-05-06", "10:00:00", "CHECK OUT"⟩], []⟩ "carol" "2024-05-06").2
        "carol" "2024-05-06").2).daily_totals "carol" "2024-05-06" = some "1h00m00s" :=
  c5_upsert_idempotent
    ⟨[⟨"carol", "2024-05-06", "09:00:00", "CHECK IN"⟩,
      ⟨"carol", "2024-05-06", "10:00:00", "CHECK OUT"⟩], []⟩
    "carol" "2024-05-06" "1h00m00s" (by decide) (by decide)
